import Mathlib

/-!
Verification of the YiuTerran/bacnet client library against its
natural-language specification.

The Go sources are embedded shallowly:
* machine integers (uint16 / uint32) become `Nat` with an explicit
  `% 2 ^ w` at the one place where overflow can occur (the shift inside
  `ObjectID.Encode`);
* byte slices become `List Nat`;
* fallible functions returning `(T, error)` become `Except String T`;
* the discovery loop, which in Go consumes frames from a channel until a
  timer fires, becomes a recursion over the finite list of frames that
  were delivered before the deadline.
-/

set_option maxRecDepth 8000

namespace BacnetSpec

/-! ## Arithmetic helpers -/

/-- Oring a multiple of `2 ^ n` with a number below `2 ^ n` is addition:
the two operands occupy disjoint bit ranges. -/
theorem two_pow_mul_lor_eq_add : ∀ (n t i : Nat), i < 2 ^ n → (t * 2 ^ n) ||| i = t * 2 ^ n + i
  | 0, t, i, h => by
    have : i = 0 := Nat.lt_one_iff.mp (by simpa using h)
    simp [this]
  | n + 1, t, i, h => by
    have hi2 : i / 2 < 2 ^ n := by
      have : (2 : Nat) ^ (n + 1) = 2 * 2 ^ n := by ring
      omega
    have ih := two_pow_mul_lor_eq_add n t (i / 2) hi2
    have hb : i = Nat.bit (i % 2 = 1) (i / 2) := by
      rcases Nat.mod_two_eq_zero_or_one i with h2 | h2 <;>
        simp [Nat.bit, h2] <;> omega
    have ht : t * 2 ^ (n + 1) = Nat.bit false (t * 2 ^ n) := by
      simp [Nat.bit]; ring
    rw [ht, hb, Nat.lor_bit]
    rcases Nat.mod_two_eq_zero_or_one i with h2 | h2 <;> simp [Nat.bit, h2, ih] <;> omega

/-- Shift-then-or with a small number, in additive form. -/
theorem shiftLeft_lor_eq_add (t i n : Nat) (h : i < 2 ^ n) :
    (t <<< n) ||| i = t * 2 ^ n + i := by
  rw [Nat.shiftLeft_eq]
  exact two_pow_mul_lor_eq_add n t i h

/-! ## src/types.go — constants and ObjectID -/

def MaxInstance : Nat := 0x3FFFFF

def instanceBits : Nat := 22

def maxObjectType : Nat := 0x400

/-- ObjectID represents the type of a bacnet object and its instance
number (src/types.go).  `Type` is a Go uint16, `Instance` a Go uint32;
both are modelled as `Nat`. -/
structure ObjectID where
  «Type» : Nat
  Instance : Nat
deriving DecidableEq

/-- Embeds `ObjectID.Encode` from src/types.go.  The Go shift
`uint32(o.«Type») << instanceBits` wraps modulo `2 ^ 32`, hence the
explicit reduction before the or. -/
def ObjectID.Encode (o : ObjectID) : Except String Nat :=
  if o.Instance > MaxInstance then .error "invalid ObjectID: instance too high"
  else if o.«Type» > maxObjectType then .error "invalid ObjectID: objectType too high too high"
  else .ok (((o.«Type» <<< instanceBits) % 2 ^ 32) ||| o.Instance)

/-- Embeds `ObjectIDFromUint32` from src/types.go.  The argument stands
for a Go uint32, so theorems below assume `v < 2 ^ 32`. -/
def ObjectIDFromUint32 (v : Nat) : ObjectID :=
  { «Type» := v >>> instanceBits, Instance := v &&& MaxInstance }

/-- Claim C1: for every pair (t, i) with t < 2^10 and i < 2^22, Encode on
the ObjectID (t, i) succeeds, and ObjectIDFromUint32 applied to the
resulting packed word returns exactly (t, i). -/
theorem encode_then_decode_roundtrip (t i : Nat) (ht : t < 2 ^ 10) (hi : i < 2 ^ 22) :
    ∃ v, (ObjectID.mk t i).Encode = .ok v ∧ ObjectIDFromUint32 v = ObjectID.mk t i := by
  have hmax : MaxInstance = 2 ^ 22 - 1 := by norm_num [MaxInstance]
  have hbits : instanceBits = 22 := rfl
  have hshift : (t <<< instanceBits) ||| i = t * 2 ^ 22 + i := by
    rw [hbits]; exact shiftLeft_lor_eq_add t i 22 hi
  have hvlt : t * 2 ^ 22 + i < 2 ^ 32 := by
    have h1 : t ≤ 2 ^ 10 - 1 := by omega
    have h2 : t * 2 ^ 22 ≤ (2 ^ 10 - 1) * 2 ^ 22 := Nat.mul_le_mul_right _ h1
    norm_num at h2 ⊢
    omega
  have hsmall : t <<< instanceBits < 2 ^ 32 := by
    rw [hbits, Nat.shiftLeft_eq]
    have h1 : t ≤ 2 ^ 10 - 1 := by omega
    have h2 : t * 2 ^ 22 ≤ (2 ^ 10 - 1) * 2 ^ 22 := Nat.mul_le_mul_right _ h1
    norm_num at h2 ⊢
    omega
  refine ⟨t * 2 ^ 22 + i, ?_, ?_⟩
  · unfold ObjectID.Encode
    have hInst : ¬ (i > MaxInstance) := by omega
    have hType : ¬ (t > maxObjectType) := by
      unfold maxObjectType; omega
    simp only [hInst, if_false, hType]
    rw [Nat.mod_eq_of_lt hsmall, hshift]
  · unfold ObjectIDFromUint32
    have hType : (t * 2 ^ 22 + i) >>> instanceBits = t := by
      rw [hbits, Nat.shiftRight_eq_div_pow]
      omega
    have hInst : (t * 2 ^ 22 + i) &&& MaxInstance = i := by
      rw [hmax, Nat.and_pow_two_sub_one_eq_mod]
      omega
    rw [hType, hInst]

/-- Witness for claim C1 at t = 8, i = 1234. -/
theorem encode_then_decode_roundtrip_witness :
    (8 : Nat) < 2 ^ 10 ∧ (1234 : Nat) < 2 ^ 22 ∧
      ∃ v, (ObjectID.mk 8 1234).Encode = .ok v ∧ ObjectIDFromUint32 v = ObjectID.mk 8 1234 :=
  ⟨by norm_num, by norm_num,
    encode_then_decode_roundtrip 8 1234 (by norm_num) (by norm_num)⟩

/-- Claim C2 (code bug evidence): the specification demands that Encode
fail for every type above 2^10 − 1, but the source compares with the
constant maxObjectType = 0x400 using a strict `>`, so the out-of-range
type 1024 = 2^10 is accepted; its shift overflows uint32 and the packed
word collapses to 0, which decodes as ObjectID (0, 0). -/
theorem encode_accepts_type_1024 :
    (ObjectID.mk 1024 0).Encode = .ok 0 ∧ ObjectIDFromUint32 0 = ObjectID.mk 0 0 := by
  constructor
  · unfold ObjectID.Encode MaxInstance maxObjectType instanceBits
    norm_num [Nat.shiftLeft_eq]
  · rfl

/-- Claim C10: unpack-then-pack is the identity on all of uint32: for
every v < 2^32, ObjectIDFromUint32 v satisfies both field bounds and
Encode on it succeeds, returning exactly v. -/
theorem decode_then_encode_roundtrip (v : Nat) (hv : v < 2 ^ 32) :
    (ObjectIDFromUint32 v).«Type» ≤ 0x3FF ∧ (ObjectIDFromUint32 v).Instance ≤ 0x3FFFFF ∧
      (ObjectIDFromUint32 v).Encode = .ok v := by
  have hmax : MaxInstance = 2 ^ 22 - 1 := by norm_num [MaxInstance]
  have hTypeEq : (ObjectIDFromUint32 v).«Type» = v / 2 ^ 22 := by
    unfold ObjectIDFromUint32 instanceBits
    simp [Nat.shiftRight_eq_div_pow]
  have hInstEq : (ObjectIDFromUint32 v).Instance = v % 2 ^ 22 := by
    unfold ObjectIDFromUint32
    simp only [hmax]
    exact Nat.and_pow_two_sub_one_eq_mod v 22
  have hTypeLt : v / 2 ^ 22 ≤ 0x3FF := by omega
  have hInstLt : v % 2 ^ 22 ≤ 0x3FFFFF := by omega
  refine ⟨by omega, by omega, ?_⟩
  unfold ObjectID.Encode
  have h1 : ¬ ((ObjectIDFromUint32 v).Instance > MaxInstance) := by
    rw [hInstEq, hmax]; omega
  have h2 : ¬ ((ObjectIDFromUint32 v).«Type» > maxObjectType) := by
    rw [hTypeEq]; unfold maxObjectType; omega
  simp only [h1, if_false, h2]
  have hshift : ((ObjectIDFromUint32 v).«Type» <<< instanceBits) ||| (ObjectIDFromUint32 v).Instance
      = (v / 2 ^ 22) * 2 ^ 22 + v % 2 ^ 22 := by
    rw [hTypeEq, hInstEq]
    have : instanceBits = 22 := rfl
    rw [this]
    exact shiftLeft_lor_eq_add _ _ 22 (Nat.mod_lt _ (by norm_num))
  have hsmall : (ObjectIDFromUint32 v).«Type» <<< instanceBits < 2 ^ 32 := by
    rw [hTypeEq]
    have : instanceBits = 22 := rfl
    rw [this, Nat.shiftLeft_eq]
    have h2 : v / 2 ^ 22 * 2 ^ 22 ≤ v := Nat.div_mul_le_self v _
    omega
  rw [Nat.mod_eq_of_lt hsmall, hshift]
  have : v / 2 ^ 22 * 2 ^ 22 + v % 2 ^ 22 = v := by omega
  rw [this]

/-- Witness for claim C10 at v = 0xDEADBEEF. -/
theorem decode_then_encode_roundtrip_witness :
    (0xDEADBEEF : Nat) < 2 ^ 32 ∧
      ((ObjectIDFromUint32 0xDEADBEEF).«Type» ≤ 0x3FF ∧
        (ObjectIDFromUint32 0xDEADBEEF).Instance ≤ 0x3FFFFF ∧
        (ObjectIDFromUint32 0xDEADBEEF).Encode = .ok 0xDEADBEEF) :=
  ⟨by norm_num, decode_then_encode_roundtrip 0xDEADBEEF (by norm_num)⟩

/-! ## src/types.go — Address and UDP conversion -/

/-- Address is the bacnet address of a device (src/types.go).  `Mac`,
`Adr` are Go byte slices, `Net` a uint16. -/
structure Address where
  Mac : List Nat
  Net : Nat
  Adr : List Nat
deriving DecidableEq

/-- A Go `net.UDPAddr`: the IP is a byte slice (4 bytes for canonical
IPv4, 16 for IPv6 or IPv4-in-IPv6), the port a Go int. -/
structure UDPAddr where
  IP : List Nat
  Port : Nat
deriving DecidableEq

/-- The 12-byte prefix the Go standard library uses for IPv4-in-IPv6
addresses (net.v4InV6Prefix). -/
def v4InV6Prefix : List Nat := [0, 0, 0, 0, 0, 0, 0, 0, 0, 0, 0xFF, 0xFF]

/-- Embeds `net.IP.To4`: the 4-byte form of an IP, or the empty slice
(Go nil) when the IP is not an IPv4 address. -/
def ipTo4 (ip : List Nat) : List Nat :=
  if ip.length = 4 then ip
  else if ip.length = 16 ∧ ip.take 12 = v4InV6Prefix then ip.drop 12
  else []

/-- Embeds `net.IP.To16`: the 16-byte form of an IP, or the empty slice
(Go nil) when the length is neither 4 nor 16. -/
def ipTo16 (ip : List Nat) : List Nat :=
  if ip.length = 4 then v4InV6Prefix ++ ip
  else if ip.length = 16 then ip
  else []

/-- Embeds `AddressFromUDP` from src/types.go: a 1-byte length tag (4 or
16), the IP bytes, then the port truncated to uint16 in big-endian. -/
def AddressFromUDP (udp : UDPAddr) : Address :=
  let b : List Nat :=
    if udp.IP.length = 4 then 4 :: ipTo4 udp.IP
    else 16 :: ipTo16 udp.IP
  let port := udp.Port % 2 ^ 16
  { Mac := b ++ [port / 2 ^ 8, port % 2 ^ 8], Net := 0, Adr := [] }

/-- Embeds `UDPFromAddress` from src/types.go.  The Go function returns
the zero value `net.UDPAddr{}` (nil IP, port 0) on every malformed
input. -/
def UDPFromAddress (addr : Address) : UDPAddr :=
  if addr.Mac.length < 2 then { IP := [], Port := 0 }
  else
    let ipLen := addr.Mac.headI
    if ipLen ≠ 4 ∧ ipLen ≠ 16 then { IP := [], Port := 0 }
    else if addr.Mac.length < 1 + ipLen + 2 then { IP := [], Port := 0 }
    else
      { IP := (addr.Mac.drop 1).take ipLen,
        Port := 2 ^ 8 * (addr.Mac.drop (1 + ipLen)).headI + (addr.Mac.drop (2 + ipLen)).headI }

/-- Claim C3: for every IPv4 address (4 bytes) and port, converting the
UDP address to a bacnet Address and back returns the original IP and
port. -/
theorem udp_address_roundtrip (ip : List Nat) (port : Nat)
    (hlen : ip.length = 4) (hport : port < 2 ^ 16) :
    UDPFromAddress (AddressFromUDP { IP := ip, Port := port }) = { IP := ip, Port := port } := by
  match ip, hlen with
  | [a, b, c, d], _ =>
    have hmod : port % 2 ^ 16 = port := Nat.mod_eq_of_lt hport
    simp only [AddressFromUDP, ipTo4, UDPFromAddress, hmod]
    norm_num [List.headI]
    omega

/-- Witness for claim C3 at 192.0.2.5:47808. -/
theorem udp_address_roundtrip_witness :
    ([192, 0, 2, 5] : List Nat).length = 4 ∧ (47808 : Nat) < 2 ^ 16 ∧
      UDPFromAddress (AddressFromUDP { IP := [192, 0, 2, 5], Port := 47808 })
        = { IP := [192, 0, 2, 5], Port := 47808 } :=
  ⟨rfl, by norm_num, udp_address_roundtrip [192, 0, 2, 5] 47808 rfl (by norm_num)⟩

/-- Claim C4: for every IPv4 UDP address, the produced Mac byte string is
exactly the 7 bytes [4, ip0, ip1, ip2, ip3, port_hi, port_lo] with the
port in big-endian. -/
theorem addressFromUDP_ipv4_mac (a b c d port : Nat) (hport : port < 2 ^ 16) :
    (AddressFromUDP { IP := [a, b, c, d], Port := port }).Mac
      = [4, a, b, c, d, port / 2 ^ 8, port % 2 ^ 8] := by
  have hmod : port % 2 ^ 16 = port := Nat.mod_eq_of_lt hport
  simp [AddressFromUDP, ipTo4, hmod]
  omega

/-- Witness for claim C4 at 192.0.2.5:47808 (0xBAC0 = 47808). -/
theorem addressFromUDP_ipv4_mac_witness :
    (47808 : Nat) < 2 ^ 16 ∧
      (AddressFromUDP { IP := [192, 0, 2, 5], Port := 47808 }).Mac
        = [4, 192, 0, 2, 5, 0xBA, 0xC0] := by
  refine ⟨by norm_num, ?_⟩
  have h := addressFromUDP_ipv4_mac 192 0 2 5 47808 (by norm_num)
  rw [h]
  norm_num

/-- Claim C5: for every Address whose Mac is shorter than
1 + length-tag + 2 bytes, or whose first byte is neither 4 nor 16,
UDPFromAddress takes the malformed-address failure path, returning the
zero UDP address (Go returns net.UDPAddr{}; there is no separate error
value in the signature). -/
theorem udpFromAddress_malformed (addr : Address)
    (h : addr.Mac.length < 1 + addr.Mac.headI + 2 ∨
          (addr.Mac.headI ≠ 4 ∧ addr.Mac.headI ≠ 16)) :
    UDPFromAddress addr = { IP := [], Port := 0 } := by
  unfold UDPFromAddress
  by_cases h1 : addr.Mac.length < 2
  · simp [h1]
  · simp only [h1, if_false]
    by_cases h2 : addr.Mac.headI ≠ 4 ∧ addr.Mac.headI ≠ 16
    · simp [h2]
    · simp only [h2, if_false]
      have h3 : addr.Mac.length < 1 + addr.Mac.headI + 2 := by tauto
      simp [h3]

/-- Witness for claim C5: a Mac with valid tag 4 but only two bytes. -/
theorem udpFromAddress_malformed_witness :
    (([4, 1] : List Nat).length < 1 + ([4, 1] : List Nat).headI + 2 ∨
        (([4, 1] : List Nat).headI ≠ 4 ∧ ([4, 1] : List Nat).headI ≠ 16)) ∧
      UDPFromAddress { Mac := [4, 1], Net := 0, Adr := [] } = { IP := [], Port := 0 } :=
  ⟨by left; simp [List.headI],
    udpFromAddress_malformed { Mac := [4, 1], Net := 0, Adr := [] }
      (by left; simp [List.headI])⟩

/-! ## Data model of src/bacip/client.go

The APDU / NPDU / BVLC record types and the payload variants are
declared elsewhere in the repository (only their callers are under the
provided sources), so they are modelled from the spec; the client logic
that uses them (WhoIs collection, ReadProperty reply handling) is
embedded from src/bacip/client.go. -/

/-- Modelled from the spec: the APDU data-type class (spec section 3,
APDU).  The Go constants referenced by client.go are
UnconfirmedServiceRequest, ConfirmedServiceRequest, SimpleAck,
ComplexAck and Error. -/
inductive APDUDataType where
  | ConfirmedServiceRequest
  | UnconfirmedServiceRequest
  | SimpleAck
  | ComplexAck
  | SegmentAck
  | Error
  | Reject
  | Abort
deriving DecidableEq

/-- Modelled from the spec: the APDU service selector (spec sections 3
and 4.2).  The unknown case keeps selectors outside the implemented
set representable. -/
inductive BacServiceType where
  | ServiceUnconfirmedWhoIs
  | ServiceUnconfirmedIAm
  | ServiceConfirmedReadProperty
  | ServiceConfirmedWriteProperty
  | ServiceUnknown (n : Nat)
deriving DecidableEq

/-- Modelled from the spec: a decoded application-layer value carried by
a ReadProperty response (spec section 4.1 lists the kinds; IEEE-754
reals are left out of the model). -/
inductive BacVal where
  | nullVal
  | unsignedVal (n : Nat)
  | signedVal (i : Int)
  | strVal (s : String)
  | enumVal (n : Nat)
  | objVal (o : ObjectID)
deriving DecidableEq

/-- PropertyIdentifier from src/types.go: enumerated property type plus
optional array index (the PropertyType enum itself is declared outside
the provided sources and is modelled as Nat). -/
structure PropertyIdentifier where
  «Type» : Nat
  ArrayIndex : Option Nat
deriving DecidableEq

/-- Modelled from the spec: the WhoIs payload with its optional
context-tagged low and high instance bounds (spec section 4.5). -/
structure WhoIs where
  Low : Option Nat
  High : Option Nat
deriving DecidableEq

/-- Modelled from the spec: the IAm payload, decoded as (ObjectID,
max-APDU, segmentation-support, vendor-id) (spec section 4.5); the
segmentation capability is the byte enum of src/types.go. -/
structure Iam where
  ObjectID : ObjectID
  MaxApduLength : Nat
  SegmentationSupport : Nat
  VendorID : Nat
deriving DecidableEq

/-- Modelled from the spec: the typed protocol error payload carrying
(error-class, error-code) (spec sections 4.2 and 4.6). -/
structure ApduError where
  ErrorClass : Nat
  ErrorCode : Nat
deriving DecidableEq

/-- Modelled from the spec: the ReadProperty request/response payload;
client.go reads its Data field from a complex-ack. -/
structure ReadProperty where
  ObjectID : ObjectID
  Property : PropertyIdentifier
  Data : BacVal
deriving DecidableEq

/-- Modelled from the spec: the closed set of service payloads (spec
section 3, APDU; section 9 names the variants).  Go stores these behind
an interface value and client.go recovers them with type assertions. -/
inductive APDUPayload where
  | whoIs (w : WhoIs)
  | iam (i : Iam)
  | readProperty (r : ReadProperty)
  | apduError (e : ApduError)
deriving DecidableEq

/-- Modelled from the spec: the APDU record (spec section 3). -/
structure APDU where
  DataType : APDUDataType
  ServiceType : BacServiceType
  InvokeID : Nat
  Payload : APDUPayload
deriving DecidableEq

/-- Modelled from the spec: the NPDU record (spec section 3); the field
name ADPU preserves the spelling used by the source. -/
structure NPDU where
  Version : Nat
  IsNetworkLayerMessage : Bool
  ExpectingReply : Bool
  Priority : Nat
  Destination : Option Address
  Source : Option Address
  HopCount : Nat
  ADPU : Option APDU
deriving DecidableEq

/-- Modelled from the spec: the BVLC link envelope (spec section 3). -/
structure BVLC where
  «Type» : Nat
  Function : Nat
  NPDU : NPDU
deriving DecidableEq

/-- Device from src/types.go. -/
structure Device where
  ID : ObjectID
  MaxApdu : Nat
  Segmentation : Nat
  Vendor : Nat
  Addr : Address
deriving DecidableEq

/-! ## ReadProperty reply classification (src/bacip/client.go 301-314) -/

/-- Outcome of the reply classification in Client.ReadProperty.
`panicked` stands for the Go panic raised by a failed type assertion
(`apdu.Payload.(*ApduError)` or `apdu.Payload.(*ReadProperty)`). -/
inductive ReadPropertyOutcome where
  | value (d : BacVal)
  | protocolErr (e : ApduError)
  | invalidAnswer
  | panicked
deriving DecidableEq

/-- Embeds the reply classification of Client.ReadProperty
(src/bacip/client.go 301-314): Error replies surface the typed ApduError
payload, ComplexAck replies for the read-property service surface the
decoded Data, everything else is the invalid-answer error. -/
def readPropertyClassify (apdu : APDU) : ReadPropertyOutcome :=
  if apdu.DataType = APDUDataType.Error then
    match apdu.Payload with
    | .apduError e => .protocolErr e
    | _ => .panicked
  else if apdu.DataType = APDUDataType.ComplexAck ∧
      apdu.ServiceType = BacServiceType.ServiceConfirmedReadProperty then
    match apdu.Payload with
    | .readProperty rp => .value rp.Data
    | _ => .panicked
  else .invalidAnswer

/-- Claim C6: a reply APDU delivered to a pending ReadProperty call is
classified as the typed protocol error when its data-type is Error, as
the decoded value when it is a ComplexAck for the read-property service,
and as the invalid-reply error in every other case. -/
theorem readProperty_reply_classification (apdu : APDU) :
    (∀ e, apdu.DataType = APDUDataType.Error →
        apdu.Payload = APDUPayload.apduError e →
        readPropertyClassify apdu = .protocolErr e) ∧
    (∀ rp, apdu.DataType = APDUDataType.ComplexAck →
        apdu.ServiceType = BacServiceType.ServiceConfirmedReadProperty →
        apdu.Payload = APDUPayload.readProperty rp →
        readPropertyClassify apdu = .value rp.Data) ∧
    (apdu.DataType ≠ APDUDataType.Error →
      ¬(apdu.DataType = APDUDataType.ComplexAck ∧
          apdu.ServiceType = BacServiceType.ServiceConfirmedReadProperty) →
      readPropertyClassify apdu = .invalidAnswer) := by
  refine ⟨?_, ?_, ?_⟩
  · intro e hdt hp
    simp [readPropertyClassify, hdt, hp]
  · intro rp hdt hsvc hp
    simp [readPropertyClassify, hdt, hsvc, hp]
  · intro hdt hcplx
    simp only [readPropertyClassify, hdt, if_false]
    simp [hcplx]

/-- Witness for claim C6: one concrete APDU per classification case. -/
theorem readProperty_reply_classification_witness :
    readPropertyClassify
        ⟨.Error, .ServiceConfirmedReadProperty, 1, .apduError ⟨1, 31⟩⟩
      = .protocolErr ⟨1, 31⟩ ∧
    readPropertyClassify
        ⟨.ComplexAck, .ServiceConfirmedReadProperty, 1,
          .readProperty ⟨⟨0, 1⟩, ⟨85, none⟩, .unsignedVal 23⟩⟩
      = .value (.unsignedVal 23) ∧
    readPropertyClassify
        ⟨.SimpleAck, .ServiceConfirmedReadProperty, 1, .whoIs ⟨none, none⟩⟩
      = .invalidAnswer :=
  ⟨(readProperty_reply_classification _).1 ⟨1, 31⟩ rfl rfl,
    (readProperty_reply_classification _).2.1 ⟨⟨0, 1⟩, ⟨85, none⟩, .unsignedVal 23⟩ rfl rfl rfl,
    (readProperty_reply_classification _).2.2 (by decide) (by decide)⟩

/-! ## WhoIs discovery collection loop (src/bacip/client.go 185-271) -/

/-- Embeds the Go map assignment `set[*iam] = *addr` of Client.WhoIs: an
association list in insertion order where assigning an existing key
overwrites its value and a new key is appended. -/
def setInsert (s : List (Iam × Address)) (k : Iam) (v : Address) : List (Iam × Address) :=
  if s.any fun p => p.1 == k then s.map fun p => if p.1 = k then (k, v) else p
  else s ++ [(k, v)]

/-- One iteration of the WhoIs collection loop (src/bacip/client.go
241-268) on a frame received before the deadline: frames without an
APDU or not classified (unconfirmed-request, service i-am) are ignored;
a classified frame whose payload fails the `*Iam` type assertion makes
the call return an error; otherwise the IAm is inserted, subject to the
instance-range filter when both bounds were supplied. -/
def whoIsStep (data : WhoIs) (s : List (Iam × Address)) (r : BVLC × UDPAddr) :
    Except String (List (Iam × Address)) :=
  match r.1.NPDU.ADPU with
  | none => .ok s
  | some apdu =>
    if apdu.DataType = APDUDataType.UnconfirmedServiceRequest ∧
        apdu.ServiceType = BacServiceType.ServiceUnconfirmedIAm then
      match apdu.Payload with
      | .iam ia =>
        match data.High, data.Low with
        | some hi, some lo =>
          if lo ≤ ia.ObjectID.Instance ∧ ia.ObjectID.Instance ≤ hi then
            .ok (setInsert s ia (AddressFromUDP r.2))
          else .ok s
        | _, _ => .ok (setInsert s ia (AddressFromUDP r.2))
      | _ => .error "unexpected payload type"
    else .ok s

/-- The WhoIs collection loop over the finite sequence of frames
delivered by the subscription before the deadline fires. -/
def whoIsRun (data : WhoIs) (s : List (Iam × Address)) :
    List (BVLC × UDPAddr) → Except String (List (Iam × Address))
  | [] => .ok s
  | r :: rest =>
    match whoIsStep data s r with
    | .error e => .error e
    | .ok s1 => whoIsRun data s1 rest

/-- The deduplication set collected by Client.WhoIs, starting empty. -/
def whoIsSet (data : WhoIs) (frames : List (BVLC × UDPAddr)) :
    Except String (List (Iam × Address)) :=
  whoIsRun data [] frames

/-- The Device built from one deduplication-set entry, as in the timer
branch of Client.WhoIs (src/bacip/client.go 231-239). -/
def deviceOfEntry (p : Iam × Address) : Device :=
  { ID := p.1.ObjectID, MaxApdu := p.1.MaxApduLength,
    Segmentation := p.1.SegmentationSupport, Vendor := p.1.VendorID, Addr := p.2 }

/-- The device list Client.WhoIs returns at the deadline, one Device per
set entry (src/bacip/client.go 230-240).  Go iterates its map in
unspecified order; the model keeps insertion order, and the theorems
below only use membership. -/
def whoIsDevices (data : WhoIs) (frames : List (BVLC × UDPAddr)) :
    Except String (List Device) :=
  (whoIsSet data frames).map fun s => s.map deviceOfEntry

/-! ### Properties of setInsert -/

theorem setInsert_mem_key (s : List (Iam × Address)) (k : Iam) (v : Address) :
    ∃ a, (k, a) ∈ setInsert s k v := by
  unfold setInsert
  by_cases hc : (s.any fun p => p.1 == k) = true
  · simp only [hc, if_true]
    rcases List.any_eq_true.mp hc with ⟨p, hp, hpk⟩
    refine ⟨v, List.mem_map.mpr ⟨p, hp, ?_⟩⟩
    simp [beq_iff_eq.mp hpk]
  · refine ⟨v, ?_⟩
    simp [hc]

theorem setInsert_key_stable (s : List (Iam × Address)) (k : Iam) (v : Address)
    (i : Iam) (hi : ∃ a, (i, a) ∈ s) : ∃ a, (i, a) ∈ setInsert s k v := by
  by_cases hik : i = k
  · subst hik; exact setInsert_mem_key s i v
  · rcases hi with ⟨a, ha⟩
    unfold setInsert
    by_cases hc : (s.any fun p => p.1 == k) = true
    · simp only [hc, if_true]
      refine ⟨a, List.mem_map.mpr ⟨(i, a), ha, ?_⟩⟩
      simp [hik]
    · exact ⟨a, by simp [hc, ha]⟩

theorem mem_of_mem_setInsert (s : List (Iam × Address)) (k : Iam) (v : Address)
    (p : Iam × Address) (h : p ∈ setInsert s k v) : p ∈ s ∨ p = (k, v) := by
  unfold setInsert at h
  by_cases hc : (s.any fun p => p.1 == k) = true
  · simp only [hc, if_true] at h
    rcases List.mem_map.mp h with ⟨q, hq, hqp⟩
    by_cases hqk : q.1 = k
    · right; rw [if_pos hqk] at hqp; exact hqp.symm
    · left; rw [if_neg hqk] at hqp; exact hqp ▸ hq
  · simp only [hc, if_false] at h
    rcases List.mem_append.mp h with h1 | h1
    · exact Or.inl h1
    · exact Or.inr (List.mem_singleton.mp h1)

theorem not_mem_setInsert (s : List (Iam × Address)) (k : Iam) (v : Address)
    (i : Iam) (hik : i ≠ k) (h : ∀ a, (i, a) ∉ s) : ∀ a, (i, a) ∉ setInsert s k v := by
  intro a hmem
  rcases mem_of_mem_setInsert s k v (i, a) hmem with h1 | h1
  · exact h a h1
  · exact hik (congrArg Prod.fst h1)

/-! ### Properties of whoIsStep -/

theorem whoIsStep_cases (data : WhoIs) (s : List (Iam × Address)) (r : BVLC × UDPAddr)
    (s' : List (Iam × Address)) (h : whoIsStep data s r = .ok s') :
    s' = s ∨
    ∃ apdu ia, r.1.NPDU.ADPU = some apdu ∧
      apdu.DataType = APDUDataType.UnconfirmedServiceRequest ∧
      apdu.ServiceType = BacServiceType.ServiceUnconfirmedIAm ∧
      apdu.Payload = APDUPayload.iam ia ∧
      s' = setInsert s ia (AddressFromUDP r.2) ∧
      (∀ lo hi, data.Low = some lo → data.High = some hi →
        lo ≤ ia.ObjectID.Instance ∧ ia.ObjectID.Instance ≤ hi) := by
  unfold whoIsStep at h
  rcases hADPU : r.1.NPDU.ADPU with _ | apdu
  · simp only [hADPU, Except.ok.injEq] at h
    exact Or.inl h.symm
  · simp only [hADPU] at h
    by_cases hcls : apdu.DataType = APDUDataType.UnconfirmedServiceRequest ∧
        apdu.ServiceType = BacServiceType.ServiceUnconfirmedIAm
    · rw [if_pos hcls] at h
      rcases hp : apdu.Payload with w | ia | rp | e
      · simp only [hp] at h
        exact Except.noConfusion h
      · simp only [hp] at h
        rcases hH : data.High with _ | hi <;> rcases hL : data.Low with _ | lo <;>
            simp only [hH, hL, Except.ok.injEq] at h
        · refine Or.inr ⟨apdu, ia, rfl, hcls.1, hcls.2, hp, h.symm, ?_⟩
          intro lo' hi' hL' hH'
          cases hL'
        · refine Or.inr ⟨apdu, ia, rfl, hcls.1, hcls.2, hp, h.symm, ?_⟩
          intro lo' hi' hL' hH'
          cases hH'
        · refine Or.inr ⟨apdu, ia, rfl, hcls.1, hcls.2, hp, h.symm, ?_⟩
          intro lo' hi' hL' hH'
          cases hL'
        · by_cases hrange : lo ≤ ia.ObjectID.Instance ∧ ia.ObjectID.Instance ≤ hi
          · rw [if_pos hrange] at h
            simp only [Except.ok.injEq] at h
            refine Or.inr ⟨apdu, ia, rfl, hcls.1, hcls.2, hp, h.symm, ?_⟩
            intro lo' hi' hL' hH'
            cases hL'
            cases hH'
            exact hrange
          · rw [if_neg hrange] at h
            simp only [Except.ok.injEq] at h
            exact Or.inl h.symm
      · simp only [hp] at h
        exact Except.noConfusion h
      · simp only [hp] at h
        exact Except.noConfusion h
    · rw [if_neg hcls] at h
      simp only [Except.ok.injEq] at h
      exact Or.inl h.symm

theorem whoIsStep_insert (data : WhoIs) (s : List (Iam × Address)) (r : BVLC × UDPAddr)
    (apdu : APDU) (ia : Iam)
    (hADPU : r.1.NPDU.ADPU = some apdu)
    (hdt : apdu.DataType = APDUDataType.UnconfirmedServiceRequest)
    (hsv : apdu.ServiceType = BacServiceType.ServiceUnconfirmedIAm)
    (hp : apdu.Payload = APDUPayload.iam ia)
    (hkeep : data.Low = none ∨ data.High = none ∨
      ∃ lo hi, data.Low = some lo ∧ data.High = some hi ∧
        lo ≤ ia.ObjectID.Instance ∧ ia.ObjectID.Instance ≤ hi) :
    whoIsStep data s r = .ok (setInsert s ia (AddressFromUDP r.2)) := by
  unfold whoIsStep
  simp only [hADPU]
  rw [if_pos ⟨hdt, hsv⟩]
  simp only [hp]
  rcases hH : data.High with _ | hi <;> rcases hL : data.Low with _ | lo <;> simp only []
  rcases hkeep with hk | hk | ⟨lo', hi', hL', hH', h1, h2⟩
  · rw [hL] at hk; cases hk
  · rw [hH] at hk; cases hk
  · rw [hL] at hL'
    cases hL'
    rw [hH] at hH'
    cases hH'
    rw [if_pos ⟨h1, h2⟩]

theorem whoIsStep_ok_of_wellformed (data : WhoIs) (s : List (Iam × Address))
    (r : BVLC × UDPAddr)
    (h : ∀ apdu, r.1.NPDU.ADPU = some apdu →
      apdu.DataType = APDUDataType.UnconfirmedServiceRequest →
      apdu.ServiceType = BacServiceType.ServiceUnconfirmedIAm →
      ∃ ia, apdu.Payload = APDUPayload.iam ia) :
    ∃ s1, whoIsStep data s r = .ok s1 := by
  unfold whoIsStep
  rcases hADPU : r.1.NPDU.ADPU with _ | apdu
  · exact ⟨s, rfl⟩
  · simp only []
    by_cases hcls : apdu.DataType = APDUDataType.UnconfirmedServiceRequest ∧
        apdu.ServiceType = BacServiceType.ServiceUnconfirmedIAm
    · rcases h apdu hADPU hcls.1 hcls.2 with ⟨ia, hp⟩
      rw [if_pos hcls]
      simp only [hp]
      rcases data.High with _ | hi <;> rcases data.Low with _ | lo <;> simp only []
      · exact ⟨_, rfl⟩
      · exact ⟨_, rfl⟩
      · exact ⟨_, rfl⟩
      · by_cases hrange : lo ≤ ia.ObjectID.Instance ∧ ia.ObjectID.Instance ≤ hi
        · exact ⟨_, by rw [if_pos hrange]⟩
        · exact ⟨s, by rw [if_neg hrange]⟩
    · exact ⟨s, by rw [if_neg hcls]⟩

theorem whoIsStep_mem (data : WhoIs) (s : List (Iam × Address)) (r : BVLC × UDPAddr)
    (s' : List (Iam × Address)) (h : whoIsStep data s r = .ok s')
    (p : Iam × Address) (hp : p ∈ s') : p ∈ s ∨ p.2 = AddressFromUDP r.2 := by
  rcases whoIsStep_cases data s r s' h with h1 | ⟨apdu, ia, _, _, _, _, hset, _⟩
  · exact Or.inl (h1 ▸ hp)
  · rcases mem_of_mem_setInsert s ia (AddressFromUDP r.2) p (hset ▸ hp) with h2 | h2
    · exact Or.inl h2
    · right; rw [h2]

/-! ### Properties of whoIsRun -/

theorem whoIsRun_key_stable (data : WhoIs) :
    ∀ (frames : List (BVLC × UDPAddr)) (s s' : List (Iam × Address)),
      whoIsRun data s frames = .ok s' → ∀ i, (∃ a, (i, a) ∈ s) → ∃ a, (i, a) ∈ s'
  | [], s, s', h => by
    simp only [whoIsRun, Except.ok.injEq] at h
    exact fun i hi => h ▸ hi
  | f :: rest, s, s', h => by
    simp only [whoIsRun] at h
    rcases hstep : whoIsStep data s f with e | s1
    · simp only [hstep] at h
      exact Except.noConfusion h
    · simp only [hstep] at h
      intro i hi
      have hs1 : ∃ a, (i, a) ∈ s1 := by
        rcases whoIsStep_cases data s f s1 hstep with h1 | ⟨_, ia, _, _, _, _, hset, _⟩
        · exact h1 ▸ hi
        · rw [hset]
          exact setInsert_key_stable s ia (AddressFromUDP f.2) i hi
      exact whoIsRun_key_stable data rest s1 s' h i hs1

theorem whoIsRun_mem_of_frame (data : WhoIs) :
    ∀ (frames : List (BVLC × UDPAddr)) (s s' : List (Iam × Address)),
      whoIsRun data s frames = .ok s' →
      ∀ r ∈ frames, ∀ apdu, r.1.NPDU.ADPU = some apdu →
        apdu.DataType = APDUDataType.UnconfirmedServiceRequest →
        apdu.ServiceType = BacServiceType.ServiceUnconfirmedIAm →
        ∀ ia, apdu.Payload = APDUPayload.iam ia →
        (data.Low = none ∨ data.High = none ∨
          ∃ lo hi, data.Low = some lo ∧ data.High = some hi ∧
            lo ≤ ia.ObjectID.Instance ∧ ia.ObjectID.Instance ≤ hi) →
        ∃ a, (ia, a) ∈ s'
  | [], s, s', h => by
    intro r hr
    exact absurd hr (List.not_mem_nil r)
  | f :: rest, s, s', h => by
    simp only [whoIsRun] at h
    rcases hstep : whoIsStep data s f with e | s1
    · simp only [hstep] at h
      exact Except.noConfusion h
    · simp only [hstep] at h
      intro r hr apdu hADPU hdt hsv ia hp hkeep
      rcases List.mem_cons.mp hr with rfl | hr'
      · have hstep' := whoIsStep_insert data s r apdu ia hADPU hdt hsv hp hkeep
        have hs1 : s1 = setInsert s ia (AddressFromUDP r.2) :=
          Except.ok.inj (hstep.symm.trans hstep')
        refine whoIsRun_key_stable data rest s1 s' h ia ?_
        rw [hs1]
        exact setInsert_mem_key s ia (AddressFromUDP r.2)
      · exact whoIsRun_mem_of_frame data rest s1 s' h r hr' apdu hADPU hdt hsv ia hp hkeep

theorem whoIsRun_excluded (data : WhoIs) (lo hi : Nat)
    (hL : data.Low = some lo) (hH : data.High = some hi) (i : Iam)
    (hout : i.ObjectID.Instance < lo ∨ hi < i.ObjectID.Instance) :
    ∀ (frames : List (BVLC × UDPAddr)) (s s' : List (Iam × Address)),
      whoIsRun data s frames = .ok s' → (∀ a, (i, a) ∉ s) → ∀ a, (i, a) ∉ s'
  | [], s, s', h => by
    simp only [whoIsRun, Except.ok.injEq] at h
    exact fun hnot => h ▸ hnot
  | f :: rest, s, s', h => by
    simp only [whoIsRun] at h
    rcases hstep : whoIsStep data s f with e | s1
    · simp only [hstep] at h
      exact Except.noConfusion h
    · simp only [hstep] at h
      intro hnot
      have hnot1 : ∀ a, (i, a) ∉ s1 := by
        rcases whoIsStep_cases data s f s1 hstep with h1 | ⟨apdu, ia, _, _, _, _, hset, hrange⟩
        · rw [h1]; exact hnot
        · have hia := hrange lo hi hL hH
          have hne : i ≠ ia := by
            intro hEq
            rw [hEq] at hout
            omega
          rw [hset]
          exact not_mem_setInsert s ia (AddressFromUDP f.2) i hne hnot
      exact whoIsRun_excluded data lo hi hL hH i hout rest s1 s' h hnot1

theorem whoIsRun_addr_provenance (data : WhoIs) :
    ∀ (frames : List (BVLC × UDPAddr)) (s s' : List (Iam × Address)),
      whoIsRun data s frames = .ok s' →
      ∀ p ∈ s', p ∈ s ∨ ∃ r ∈ frames, p.2 = AddressFromUDP r.2
  | [], s, s', h => by
    simp only [whoIsRun, Except.ok.injEq] at h
    exact fun p hp => Or.inl (h ▸ hp)
  | f :: rest, s, s', h => by
    simp only [whoIsRun] at h
    rcases hstep : whoIsStep data s f with e | s1
    · simp only [hstep] at h
      exact Except.noConfusion h
    · simp only [hstep] at h
      intro p hp
      rcases whoIsRun_addr_provenance data rest s1 s' h p hp with h1 | ⟨r, hr, hr2⟩
      · rcases whoIsStep_mem data s f s1 hstep p h1 with h2 | h2
        · exact Or.inl h2
        · exact Or.inr ⟨f, List.mem_cons_self f rest, h2⟩
      · exact Or.inr ⟨r, List.mem_cons_of_mem f hr, hr2⟩

theorem whoIsRun_ok_of_wellformed (data : WhoIs) :
    ∀ (frames : List (BVLC × UDPAddr)) (s : List (Iam × Address)),
      (∀ r ∈ frames, ∀ apdu, r.1.NPDU.ADPU = some apdu →
        apdu.DataType = APDUDataType.UnconfirmedServiceRequest →
        apdu.ServiceType = BacServiceType.ServiceUnconfirmedIAm →
        ∃ ia, apdu.Payload = APDUPayload.iam ia) →
      ∃ s', whoIsRun data s frames = .ok s'
  | [], s, _ => ⟨s, rfl⟩
  | f :: rest, s, h => by
    rcases whoIsStep_ok_of_wellformed data s f (h f (List.mem_cons_self f rest)) with ⟨s1, hstep⟩
    rcases whoIsRun_ok_of_wellformed data rest s1
        (fun r hr => h r (List.mem_cons_of_mem f hr)) with ⟨s', hrun⟩
    refine ⟨s', ?_⟩
    simp only [whoIsRun, hstep]
    exact hrun

/-! ### From the deduplication set to the returned device list -/

theorem deviceOfEntry_inj (p q : Iam × Address) (h : deviceOfEntry p = deviceOfEntry q) :
    p = q := by
  rcases p with ⟨⟨po, pm, ps, pv⟩, pa⟩
  rcases q with ⟨⟨qo, qm, qs, qv⟩, qa⟩
  simp only [deviceOfEntry, Device.mk.injEq] at h
  obtain ⟨h1, h2, h3, h4, h5⟩ := h
  simp_all

theorem whoIsDevices_ok_elim (data : WhoIs) (frames : List (BVLC × UDPAddr))
    (devs : List Device) (h : whoIsDevices data frames = .ok devs) :
    ∃ s', whoIsSet data frames = .ok s' ∧ devs = s'.map deviceOfEntry := by
  unfold whoIsDevices at h
  rcases hset : whoIsSet data frames with e | s'
  · rw [hset] at h
    exact Except.noConfusion h
  · rw [hset] at h
    exact ⟨s', rfl, (Except.ok.inj h).symm⟩

/-- Claim C7: an IAm collected during discovery is excluded from the
returned device set precisely according to the range filter: without a
supplied range every decoded IAm is returned; with a range (both bounds
present) the IAm is returned when its instance lies inside [low, high]
inclusive, and never returned when its instance lies outside. -/
theorem whoIs_range_filter (data : WhoIs) (frames : List (BVLC × UDPAddr))
    (devs : List Device) (hdevs : whoIsDevices data frames = .ok devs) :
    ((data.Low = none ∨ data.High = none) →
      ∀ r ∈ frames, ∀ apdu, r.1.NPDU.ADPU = some apdu →
        apdu.DataType = APDUDataType.UnconfirmedServiceRequest →
        apdu.ServiceType = BacServiceType.ServiceUnconfirmedIAm →
        ∀ ia, apdu.Payload = APDUPayload.iam ia →
          ∃ a, deviceOfEntry (ia, a) ∈ devs) ∧
    (∀ lo hi, data.Low = some lo → data.High = some hi →
      ∀ r ∈ frames, ∀ apdu, r.1.NPDU.ADPU = some apdu →
        apdu.DataType = APDUDataType.UnconfirmedServiceRequest →
        apdu.ServiceType = BacServiceType.ServiceUnconfirmedIAm →
        ∀ ia, apdu.Payload = APDUPayload.iam ia →
          lo ≤ ia.ObjectID.Instance → ia.ObjectID.Instance ≤ hi →
          ∃ a, deviceOfEntry (ia, a) ∈ devs) ∧
    (∀ lo hi, data.Low = some lo → data.High = some hi →
      ∀ ia : Iam, (ia.ObjectID.Instance < lo ∨ hi < ia.ObjectID.Instance) →
        ∀ a, deviceOfEntry (ia, a) ∉ devs) := by
  rcases whoIsDevices_ok_elim data frames devs hdevs with ⟨s', hset, hmap⟩
  refine ⟨?_, ?_, ?_⟩
  · intro hno r hr apdu hADPU hdt hsv ia hp
    rcases whoIsRun_mem_of_frame data frames [] s' hset r hr apdu hADPU hdt hsv ia hp
        (hno.elim Or.inl fun h2 => Or.inr (Or.inl h2)) with ⟨a, ha⟩
    exact ⟨a, hmap ▸ List.mem_map_of_mem deviceOfEntry ha⟩
  · intro lo hi hL hH r hr apdu hADPU hdt hsv ia hp h1 h2
    rcases whoIsRun_mem_of_frame data frames [] s' hset r hr apdu hADPU hdt hsv ia hp
        (Or.inr (Or.inr ⟨lo, hi, hL, hH, h1, h2⟩)) with ⟨a, ha⟩
    exact ⟨a, hmap ▸ List.mem_map_of_mem deviceOfEntry ha⟩
  · intro lo hi hL hH ia hout a hmem
    rw [hmap] at hmem
    rcases List.mem_map.mp hmem with ⟨p, hpmem, hpeq⟩
    have hpe : p = (ia, a) := deviceOfEntry_inj p (ia, a) hpeq
    subst hpe
    exact whoIsRun_excluded data lo hi hL hH ia hout frames [] s' hset
      (fun a2 hmem2 => List.not_mem_nil _ hmem2) a hpmem

/-- Witness for claim C7: range [100, 200]; an IAm with instance 150 is
returned, an IAm with instance 50 is injected but not returned. -/
theorem whoIs_range_filter_witness :
    (∃ a, deviceOfEntry (⟨⟨8, 150⟩, 1476, 0, 260⟩, a)
        ∈ [deviceOfEntry (⟨⟨8, 150⟩, 1476, 0, 260⟩, AddressFromUDP ⟨[10, 0, 0, 1], 47808⟩)]) ∧
    (∀ a, deviceOfEntry (⟨⟨8, 50⟩, 1476, 0, 260⟩, a)
        ∉ [deviceOfEntry (⟨⟨8, 150⟩, 1476, 0, 260⟩, AddressFromUDP ⟨[10, 0, 0, 1], 47808⟩)]) := by
  have h := whoIs_range_filter ⟨some 100, some 200⟩
    [(⟨0x81, 11, ⟨1, false, false, 0, none, none, 0,
        some ⟨.UnconfirmedServiceRequest, .ServiceUnconfirmedIAm, 0,
          .iam ⟨⟨8, 150⟩, 1476, 0, 260⟩⟩⟩⟩, ⟨[10, 0, 0, 1], 47808⟩),
      (⟨0x81, 11, ⟨1, false, false, 0, none, none, 0,
        some ⟨.UnconfirmedServiceRequest, .ServiceUnconfirmedIAm, 0,
          .iam ⟨⟨8, 50⟩, 1476, 0, 260⟩⟩⟩⟩, ⟨[10, 0, 0, 2], 47808⟩)]
    [deviceOfEntry (⟨⟨8, 150⟩, 1476, 0, 260⟩, AddressFromUDP ⟨[10, 0, 0, 1], 47808⟩)] rfl
  refine ⟨?_, ?_⟩
  · exact h.2.1 100 200 rfl rfl _ (List.mem_cons_self _ _) _ rfl rfl rfl _ rfl
      (by norm_num) (by norm_num)
  · exact fun a => h.2.2 100 200 rfl rfl ⟨⟨8, 50⟩, 1476, 0, 260⟩ (Or.inl (by norm_num)) a

/-- Claim C8 counterexample: the collection loop of Client.WhoIs returns
an error when a frame classified as an IAm carries a payload that fails
the *Iam type assertion (src/bacip/client.go 247-250), so discovery does
not always return the collected set. -/
theorem whoIs_error_on_unexpected_payload :
    whoIsDevices ⟨none, none⟩
      [(⟨0x81, 11, ⟨1, false, false, 0, none, none, 0,
          some ⟨.UnconfirmedServiceRequest, .ServiceUnconfirmedIAm, 0,
            .whoIs ⟨none, none⟩⟩⟩⟩,
        ⟨[192, 0, 2, 5], 47808⟩)]
      = .error "unexpected payload type" := rfl

/-- Claim C8 amended: the collection loop returns the devices collected
so far at the deadline for every sequence of received frames in which
each frame classified (unconfirmed-request, service i-am) carries an Iam
payload; it fails only on an IAm-classified frame with a mismatched
payload (and, in the full call, when the initial broadcast send fails). -/
theorem whoIs_collect_ok (data : WhoIs) (frames : List (BVLC × UDPAddr))
    (h : ∀ r ∈ frames, ∀ apdu, r.1.NPDU.ADPU = some apdu →
      apdu.DataType = APDUDataType.UnconfirmedServiceRequest →
      apdu.ServiceType = BacServiceType.ServiceUnconfirmedIAm →
      ∃ ia, apdu.Payload = APDUPayload.iam ia) :
    ∃ devs, whoIsDevices data frames = .ok devs := by
  rcases whoIsRun_ok_of_wellformed data frames [] h with ⟨s', hrun⟩
  refine ⟨s'.map deviceOfEntry, ?_⟩
  unfold whoIsDevices whoIsSet
  rw [hrun]
  rfl

/-- Witness for claim C8 (amended) on one well-formed IAm frame. -/
theorem whoIs_collect_ok_witness :
    ∃ devs, whoIsDevices ⟨none, none⟩
      [(⟨0x81, 11, ⟨1, false, false, 0, none, none, 0,
          some ⟨.UnconfirmedServiceRequest, .ServiceUnconfirmedIAm, 0,
            .iam ⟨⟨8, 1234⟩, 1476, 0, 260⟩⟩⟩⟩,
        ⟨[192, 0, 2, 5], 47808⟩)]
      = .ok devs := by
  apply whoIs_collect_ok
  intro r hr apdu hADPU hdt hsv
  simp only [List.mem_singleton] at hr
  subst hr
  have h2 : some (⟨.UnconfirmedServiceRequest, .ServiceUnconfirmedIAm, 0,
      .iam ⟨⟨8, 1234⟩, 1476, 0, 260⟩⟩ : APDU) = some apdu := hADPU
  obtain rfl := Option.some.inj h2
  exact ⟨⟨⟨8, 1234⟩, 1476, 0, 260⟩, rfl⟩

/-- Claim C9 counterexample: a frame whose NPDU carries a source
specifier is still recorded under the address derived from the UDP
source of the datagram; the NPDU source address is not used. -/
theorem whoIs_records_udp_source_despite_npdu_source :
    whoIsSet ⟨none, none⟩
      [(⟨0x81, 11, ⟨1, false, false, 0, none,
          some ⟨[0x0A, 0x0B, 0x0C], 7, [0x01]⟩, 0,
          some ⟨.UnconfirmedServiceRequest, .ServiceUnconfirmedIAm, 0,
            .iam ⟨⟨8, 1234⟩, 1476, 0, 260⟩⟩⟩⟩,
        ⟨[192, 0, 2, 5], 47808⟩)]
      = .ok [(⟨⟨8, 1234⟩, 1476, 0, 260⟩, AddressFromUDP ⟨[192, 0, 2, 5], 47808⟩)] ∧
    AddressFromUDP ⟨[192, 0, 2, 5], 47808⟩ ≠ ⟨[0x0A, 0x0B, 0x0C], 7, [0x01]⟩ :=
  ⟨rfl, by decide⟩

/-- Claim C9 amended: every address recorded in the discovery set is
derived from the UDP source address of one of the received datagrams;
the NPDU source specifier is never consulted, even when present. -/
theorem whoIs_addr_from_udp_source (data : WhoIs) (frames : List (BVLC × UDPAddr))
    (s' : List (Iam × Address)) (hrun : whoIsSet data frames = .ok s') :
    ∀ p ∈ s', ∃ r ∈ frames, p.2 = AddressFromUDP r.2 := by
  intro p hp
  rcases whoIsRun_addr_provenance data frames [] s' hrun p hp with h1 | h1
  · exact absurd h1 (List.not_mem_nil p)
  · exact h1

/-- Witness for claim C9 (amended) on one concrete frame. -/
theorem whoIs_addr_from_udp_source_witness :
    ∃ r ∈ ([(⟨0x81, 11, ⟨1, false, false, 0, none, none, 0,
        some ⟨.UnconfirmedServiceRequest, .ServiceUnconfirmedIAm, 0,
          .iam ⟨⟨8, 1234⟩, 1476, 0, 260⟩⟩⟩⟩,
        ⟨[192, 0, 2, 5], 47808⟩)] : List (BVLC × UDPAddr)),
      ((⟨⟨8, 1234⟩, 1476, 0, 260⟩ : Iam),
        AddressFromUDP ⟨[192, 0, 2, 5], 47808⟩).2 = AddressFromUDP r.2 := by
  refine whoIs_addr_from_udp_source ⟨none, none⟩ _
    [(⟨⟨8, 1234⟩, 1476, 0, 260⟩, AddressFromUDP ⟨[192, 0, 2, 5], 47808⟩)] ?_
    _ (List.mem_cons_self _ _)
  rfl

end BacnetSpec
